import Mathlib

/-!
Shallow embedding of the core game logic of `build.rs` (a build-time Tetris):
the playfield grid, piece geometry, rotation, line-clear compaction, scoring,
level progression, collision checking, and the per-frame `Game::update`
state machine.  Machine integers (`u8`, `u32`) are modelled as `Nat`/`Int`
with explicit checked/saturating arithmetic where the source uses it;
operations whose source can hit a fatal assertion return `Option`, with
`none` standing for the assertion failure / panic.
-/

/-- The seven piece shapes (`enum Tetromino` in the source). -/
inductive Tetromino where
  | I | O | T | J | L | S | Z
  deriving DecidableEq, Repr, Fintype

/-- The four orientations (`enum Rotation` in the source). -/
inductive Rotation where
  | DEG0 | DEG90 | DEG180 | DEG270
  deriving DecidableEq, Repr, Fintype

/-- `Rotation::spin_cw`. -/
def Rotation.spin_cw : Rotation → Rotation
  | .DEG0 => .DEG90
  | .DEG90 => .DEG180
  | .DEG180 => .DEG270
  | .DEG270 => .DEG0

/-- `Rotation::spin_acw`. -/
def Rotation.spin_acw : Rotation → Rotation
  | .DEG0 => .DEG270
  | .DEG90 => .DEG0
  | .DEG180 => .DEG90
  | .DEG270 => .DEG180

/-- `Tetromino::neighbors`: the four occupied cells of a (shape, rotation)
pair, relative to the anchor, transcribed from the source's table. -/
def Tetromino.neighbors : Tetromino → Rotation → List (Int × Int)
  | .I, .DEG0 | .I, .DEG180 => [(-1, 0), (0, 0), (1, 0), (2, 0)]
  | .I, .DEG90 | .I, .DEG270 => [(0, -1), (0, 0), (0, 1), (0, 2)]
  | .O, _ => [(0, 0), (1, 0), (0, 1), (1, 1)]
  | .T, .DEG0 => [(0, -1), (-1, 0), (0, 0), (1, 0)]
  | .T, .DEG90 => [(0, -1), (0, 0), (1, 0), (0, 1)]
  | .T, .DEG180 => [(-1, 0), (0, 0), (1, 0), (0, 1)]
  | .T, .DEG270 => [(0, -1), (-1, 0), (0, 0), (0, 1)]
  | .J, .DEG0 => [(0, -1), (0, 0), (-1, 1), (0, 1)]
  | .J, .DEG90 => [(-1, -1), (-1, 0), (0, 0), (1, 0)]
  | .J, .DEG180 => [(0, -1), (1, -1), (0, 0), (0, 1)]
  | .J, .DEG270 => [(-1, 0), (0, 0), (1, 0), (1, 1)]
  | .L, .DEG0 => [(0, -1), (0, 0), (0, 1), (1, 1)]
  | .L, .DEG90 => [(-1, 0), (0, 0), (1, 0), (-1, 1)]
  | .L, .DEG180 => [(-1, -1), (0, -1), (0, 0), (0, 1)]
  | .L, .DEG270 => [(1, -1), (-1, 0), (0, 0), (1, 0)]
  | .S, .DEG0 | .S, .DEG180 => [(0, 0), (1, 0), (-1, 1), (0, 1)]
  | .S, .DEG90 | .S, .DEG270 => [(0, -1), (0, 0), (1, 0), (1, 1)]
  | .Z, .DEG0 | .Z, .DEG180 => [(-1, 0), (0, 0), (0, 1), (1, 1)]
  | .Z, .DEG90 | .Z, .DEG270 => [(0, -1), (-1, 0), (0, 0), (-1, 1)]

/-- `u8::checked_add_signed`: `some` of the mathematical sum when it fits in
a `u8`, `none` on overflow/underflow. -/
def checkedAddSigned (n : Nat) (d : Int) : Option Nat :=
  if 0 ≤ (n : Int) + d ∧ (n : Int) + d ≤ 255 then some ((n : Int) + d).toNat else none

/-- `u8::saturating_add_signed`: the mathematical sum clamped into `[0, 255]`. -/
def satAddSigned (n : Nat) (d : Int) : Nat :=
  min 255 ((n : Int) + d).toNat

/-- The playfield (`struct Grid`): `WIDTH * HEIGHT` cells in row-major order
(`idx = y * WIDTH + x`), each `none` (empty) or the shape that occupies it. -/
structure Grid where
  cells : List (Option Tetromino)
  deriving DecidableEq, Repr

namespace Grid

/-- `Grid::WIDTH`. -/
def WIDTH : Nat := 10

/-- `Grid::HEIGHT`. -/
def HEIGHT : Nat := 22

/-- `Grid::new`: all cells empty. -/
def new : Grid := ⟨List.replicate (WIDTH * HEIGHT) none⟩

/-- Raw row-major cell read (the dereference inside `Grid::at`). -/
def atD (g : Grid) (x y : Nat) : Option Tetromino :=
  g.cells.getD (y * WIDTH + x) none

/-- `Grid::at` with its two bounds assertions: `none` models the fatal
assertion failure on an out-of-range coordinate. -/
def atE (g : Grid) (x y : Nat) : Option (Option Tetromino) :=
  if x < WIDTH ∧ y < HEIGHT then some (g.atD x y) else none

/-- Raw row-major cell write (the dereference inside `Grid::at_mut`);
used only at coordinates the algorithm keeps inside the grid, matching
the source positions where the `at_mut` assertions cannot fire. -/
def set (g : Grid) (x y : Nat) (v : Option Tetromino) : Grid :=
  ⟨g.cells.set (y * WIDTH + x) v⟩

/-- `Grid::at_mut` with its bounds assertions, as a checked single-cell
write: `none` models the fatal assertion failure. -/
def setE (g : Grid) (x y : Nat) (v : Option Tetromino) : Option Grid :=
  if x < WIDTH ∧ y < HEIGHT then some (g.set x y v) else none

/-- Whether every cell of row `y` is occupied (the `filled` flag computed by
the scanning loop of `squash_filled_rows`; its early `break` fires only after
both row flags are settled, so the loop decides exactly this). -/
def rowFilled (g : Grid) (y : Nat) : Bool :=
  (List.range WIDTH).all fun x => (g.atD x y).isSome

/-- Whether some cell of row `y` is occupied (what makes the scanning loop
update `min_y` at row `y`). -/
def rowOccupied (g : Grid) (y : Nat) : Bool :=
  (List.range WIDTH).any fun x => (g.atD x y).isSome

/-- The filled rows in the order the scanning loop pushes them: the loop
runs `y` from the bottom (`HEIGHT - 1`) up to `0`, so indices descend. -/
def filledRows (g : Grid) : List Nat :=
  ((List.range HEIGHT).reverse).filter g.rowFilled

/-- `min_y` after the scanning loop: the topmost row with any occupied cell
(the loop descends, so the last row that updates `min_y` is the smallest),
or `HEIGHT` when the grid is empty. -/
def minOccupiedY (g : Grid) : Nat :=
  ((List.range HEIGHT).find? g.rowOccupied).getD HEIGHT

/-- One `*self.at_mut(x, y_dst) = self.at(x, y_src)` row copy, cell by cell,
reading from the grid being mutated exactly as the source does. -/
def copyRow (g : Grid) (ysrc ydst : Nat) : Grid :=
  (List.range WIDTH).foldl (fun acc x => acc.set x ydst (acc.atD x ysrc)) g

/-- Clearing one row to `None` (the zeroing loop body). -/
def clearRow (g : Grid) (y : Nat) : Grid :=
  (List.range WIDTH).foldl (fun acc x => acc.set x y none) g

/-- The score table inside `Grid::_to_score` (the `match` arms `0..=4`). -/
def clearScore : Nat → Nat
  | 0 => 0
  | 1 => 5
  | 2 => 15
  | 3 => 30
  | _ => 50

/-- `Grid::_to_score`: asserts the count is at most 4 (`none` models the
assertion failure) and otherwise returns the table value. -/
def toScore (n : Nat) : Option Nat :=
  if n ≤ 4 then some (clearScore n) else none

/-- `Grid::placeTetromino` body of `place_tetromino_then_update`'s write
loop: each neighbor cell coordinate goes through `overflowing_add_signed`
followed by `assert!(overflowed == false)` (that is, a checked add), then
through the `at_mut` bounds assertions; `none` models any of those
assertions failing. -/
def placeTetromino (g : Grid) (t : Tetromino) (r : Rotation) (pos : Nat × Nat) :
    Option Grid :=
  (t.neighbors r).foldlM
    (fun acc d => do
      let x ← checkedAddSigned pos.1 d.1
      let y ← checkedAddSigned pos.2 d.2
      acc.setE x y (some t))
    g

/-- `Grid::squash_filled_rows`.  `src_range_indices` is the descending list
of filled rows, with `min_y.saturating_sub(1)` appended when the grid is
non-empty; each `windows(2)` pair `(a, b)` at index `nth` copies the rows
`(b+1)..a` (reversed, enumerated by `i`) down to `a + nth - i`; finally the
rows `min_y..min_y + no_filled_rows` are cleared.  The returned score goes
through `_to_score`, whose assertion (`none`) fires when more than 4 rows
were filled. -/
def squash_filled_rows (g : Grid) : Option (Grid × Nat) :=
  let filled := g.filledRows
  let minY := g.minOccupiedY
  let src := filled ++ (if minY ≠ HEIGHT then [minY - 1] else [])
  let g1 := ((src.zip src.tail).enum).foldl
    (fun acc p =>
      let nth := p.1
      let a := p.2.1
      let b := p.2.2
      (List.range (a - (b + 1))).foldl
        (fun acc2 i => acc2.copyRow (a - 1 - i) (a + nth - i)) acc)
    g
  let g2 := if minY ≠ HEIGHT then
      (List.range filled.length).foldl (fun acc i => acc.clearRow (minY + i)) g1
    else g1
  (toScore filled.length).map fun sc => (g2, sc)

end Grid

/-- `struct Level`. -/
structure Level where
  tick_rate : Nat
  piece_count : Nat
  deriving DecidableEq, Repr

/-- The fixed step table inside `Level::update` (the `match` on
`self.piece_count` with arms `0..=25`, `26..=50`, …). -/
def Level.rateFor (pc : Nat) : Nat :=
  if pc ≤ 25 then 30
  else if pc ≤ 50 then 25
  else if pc ≤ 100 then 20
  else if pc ≤ 200 then 15
  else if pc ≤ 300 then 12
  else if pc ≤ 500 then 10
  else if pc ≤ 700 then 8
  else if pc ≤ 900 then 6
  else 5

/-- `Level::new`: tick rate 30, piece count starting at 1. -/
def Level.new : Level := ⟨30, 1⟩

/-- `Level::update`: increment the piece counter, then recompute the tick
rate from the table (the `eprintln` on a rate change is I/O only). -/
def Level.update (l : Level) : Level :=
  ⟨Level.rateFor (l.piece_count + 1), l.piece_count + 1⟩

/-- The level after `k` locks: `k` applications of `Level::update` to
`Level::new`. -/
def levelAfter : Nat → Level
  | 0 => Level.new
  | k + 1 => (levelAfter k).update

/-- `enum State`. -/
inductive State where
  | Start | Play | Pause | Over | WindowClose
  deriving DecidableEq, Repr

/-- The loop body of `Game::_movable_with` over the remaining neighbors:
each neighbor goes through `checked_add_signed` on both coordinates (a
`None` makes the whole check `false`), then the explicit
`x >= WIDTH || y >= HEIGHT` test (again `false`), and only then the
`Grid::at` read — so the outer `none` (the `at` assertion firing) is
reachable only if a coordinate passed all the guards yet were out of
range. -/
def cellsFreeE (g : Grid) (pos : Nat × Nat) (xd yd : Int) :
    List (Int × Int) → Option Bool
  | [] => some true
  | d :: rest =>
    match checkedAddSigned pos.1 (d.1 + xd), checkedAddSigned pos.2 (d.2 + yd) with
    | some x, some y =>
      if Grid.WIDTH ≤ x ∨ Grid.HEIGHT ≤ y then some false
      else
        match g.atE x y with
        | none => none
        | some c => if c.isSome then some false else cellsFreeE g pos xd yd rest
    | _, _ => some false

/-- `Game::_movable_with` with the `Grid::at` assertion made explicit
(`none` = the assertion fired). -/
def movableWithE (g : Grid) (t : Tetromino) (r : Rotation) (pos : Nat × Nat)
    (xd yd : Int) : Option Bool :=
  cellsFreeE g pos xd yd (t.neighbors r)

/-- Whether the cell a neighbor offset `d` lands on, from anchor `pos`
shifted by `(xd, yd)`, lies inside the playfield. -/
def targetInBounds (pos : Nat × Nat) (xd yd : Int) (d : Int × Int) : Prop :=
  0 ≤ (pos.1 : Int) + (d.1 + xd) ∧ (pos.1 : Int) + (d.1 + xd) < Grid.WIDTH ∧
  0 ≤ (pos.2 : Int) + (d.2 + yd) ∧ (pos.2 : Int) + (d.2 + yd) < Grid.HEIGHT

instance (pos : Nat × Nat) (xd yd : Int) (d : Int × Int) :
    Decidable (targetInBounds pos xd yd d) := by
  unfold targetInBounds; infer_instance

/-- Totality of the collision check at the list level: the guards in front
of the `Grid::at` call keep its coordinates in range, so the assertion
(`none`) is unreachable. -/
theorem cellsFreeE_isSome (g : Grid) (pos : Nat × Nat) (xd yd : Int) :
    ∀ l : List (Int × Int), ∃ b, cellsFreeE g pos xd yd l = some b := by
  intro l
  induction l with
  | nil => exact ⟨true, rfl⟩
  | cons d rest ih =>
    simp only [cellsFreeE]
    cases hx : checkedAddSigned pos.1 (d.1 + xd) with
    | none => exact ⟨false, rfl⟩
    | some x =>
      cases hy : checkedAddSigned pos.2 (d.2 + yd) with
      | none => exact ⟨false, rfl⟩
      | some y =>
        simp only
        by_cases hb : Grid.WIDTH ≤ x ∨ Grid.HEIGHT ≤ y
        · exact ⟨false, by simp [hb]⟩
        · push_neg at hb
          have hat : g.atE x y = some (g.atD x y) := by
            simp [Grid.atE, hb.1, hb.2]
          rw [if_neg (by simpa using hb), hat]
          by_cases hc : (g.atD x y).isSome
          · exact ⟨false, by simp [hc]⟩
          · obtain ⟨b, hbres⟩ := ih
            exact ⟨b, by simp [hc, hbres]⟩

/-- `Game::_movable_with` as the total Boolean it computes (justified by
`cellsFreeE_isSome`). -/
def movableWith (g : Grid) (t : Tetromino) (r : Rotation) (pos : Nat × Nat)
    (xd yd : Int) : Bool :=
  (movableWithE g t r pos xd yd).getD false

theorem movableWithE_eq_some (g : Grid) (t : Tetromino) (r : Rotation)
    (pos : Nat × Nat) (xd yd : Int) :
    movableWithE g t r pos xd yd = some (movableWith g t r pos xd yd) := by
  obtain ⟨b, hb⟩ := cellsFreeE_isSome g pos xd yd (t.neighbors r)
  simp [movableWith, movableWithE] at hb ⊢
  simp [hb]

/-- When the check succeeds, every neighbor's target cell is in bounds and
empty (read off the loop, by induction). -/
theorem cellsFreeE_true_spec (g : Grid) (pos : Nat × Nat) (xd yd : Int) :
    ∀ l : List (Int × Int), cellsFreeE g pos xd yd l = some true →
      ∀ d ∈ l, targetInBounds pos xd yd d ∧
        g.atD ((pos.1 : Int) + (d.1 + xd)).toNat ((pos.2 : Int) + (d.2 + yd)).toNat
          = none := by
  intro l
  induction l with
  | nil => intro _ d hd; cases hd
  | cons d0 rest ih =>
    intro h d hd
    simp only [cellsFreeE] at h
    cases hx : checkedAddSigned pos.1 (d0.1 + xd) with
    | none => rw [hx] at h; cases h
    | some x =>
      cases hy : checkedAddSigned pos.2 (d0.2 + yd) with
      | none => rw [hx, hy] at h; cases h
      | some y =>
        rw [hx, hy] at h
        dsimp only at h
        by_cases hb : Grid.WIDTH ≤ x ∨ Grid.HEIGHT ≤ y
        · rw [if_pos hb] at h; cases h
        · rw [if_neg hb] at h
          push_neg at hb
          have hat : g.atE x y = some (g.atD x y) := by
            simp [Grid.atE, hb.1, hb.2]
          rw [hat] at h
          dsimp only at h
          by_cases hc : (g.atD x y).isSome
          · rw [if_pos hc] at h; cases h
          · rw [if_neg hc] at h
            have hxval : ((pos.1 : Int) + (d0.1 + xd)).toNat = x ∧
                0 ≤ (pos.1 : Int) + (d0.1 + xd) ∧ (pos.1 : Int) + (d0.1 + xd) ≤ 255 := by
              unfold checkedAddSigned at hx
              by_cases hcond : 0 ≤ (pos.1 : Int) + (d0.1 + xd) ∧ (pos.1 : Int) + (d0.1 + xd) ≤ 255
              · rw [if_pos hcond] at hx
                exact ⟨by injection hx, hcond⟩
              · rw [if_neg hcond] at hx; cases hx
            have hyval : ((pos.2 : Int) + (d0.2 + yd)).toNat = y ∧
                0 ≤ (pos.2 : Int) + (d0.2 + yd) ∧ (pos.2 : Int) + (d0.2 + yd) ≤ 255 := by
              unfold checkedAddSigned at hy
              by_cases hcond : 0 ≤ (pos.2 : Int) + (d0.2 + yd) ∧ (pos.2 : Int) + (d0.2 + yd) ≤ 255
              · rw [if_pos hcond] at hy
                exact ⟨by injection hy, hcond⟩
              · rw [if_neg hcond] at hy; cases hy
            rcases List.mem_cons.mp hd with rfl | hd
            · refine ⟨⟨hxval.2.1, ?_, hyval.2.1, ?_⟩, ?_⟩
              · have := hb.1
                omega
              · have := hb.2
                omega
              · rw [hxval.1, hyval.1]
                exact Option.not_isSome_iff_eq_none.mp hc
            · exact ih h d hd

/-- Every (shape, rotation) offset set contains the anchor cell `(0, 0)`
(immediate from the catalog). -/
theorem zero_mem_neighbors : ∀ (t : Tetromino) (r : Rotation),
    ((0, 0) : Int × Int) ∈ t.neighbors r := by decide

/-- If a one-row descent is legal, the anchor row is below 21 (the `(0,0)`
neighbor's target `pos.2 + 1` must be under `HEIGHT`); this bounds the
hard-drop loop. -/
theorem movable_down_pos_lt (g : Grid) (t : Tetromino) (r : Rotation)
    (pos : Nat × Nat) (h : movableWith g t r pos 0 1 = true) :
    pos.2 < Grid.HEIGHT - 1 := by
  have he : movableWithE g t r pos 0 1 = some true := by
    rw [movableWithE_eq_some, h]
  have hs := cellsFreeE_true_spec g pos 0 1 (t.neighbors r) he (0, 0)
    (zero_mem_neighbors t r)
  have hin := hs.1.2.2.2
  simp only [Grid.HEIGHT] at hin ⊢
  omega

/-- `struct Game`.  `pos` is `(column, row)` as in the source. -/
structure Game where
  state : State
  grid : Grid
  pos : Nat × Nat
  tetromino : Tetromino
  rot : Rotation
  holding_tetromino : Option Tetromino
  swapped : Bool
  next_tetromino : Tetromino
  level : Level
  tick : Nat
  score : Nat
  deriving DecidableEq, Repr

/-- `Game::new`, with the two `rand::random()` draws passed in as `t1`
(active piece) and `t2` (next piece). -/
def Game.new (t1 t2 : Tetromino) : Game :=
  { state := State.Start
    grid := Grid.new
    pos := (Grid.WIDTH / 2, 1)
    tetromino := t1
    rot := Rotation.DEG0
    holding_tetromino := none
    swapped := false
    next_tetromino := t2
    level := Level.new
    tick := 0
    score := 0 }

/-- `Game::_movable_with` on the game's own grid, piece and position. -/
def Game.movable (g : Game) (r : Rotation) (xd yd : Int) : Bool :=
  movableWith g.grid g.tetromino r g.pos xd yd

/-- The hard-drop loop `while self._movable_with(self.rot, 0, 1)
{ self.pos.1 += 1 }`; it terminates because a legal descent keeps the
anchor row under `HEIGHT - 1`. -/
def Game.hardDrop (g : Game) : Game :=
  if h : g.movable g.rot 0 1 then
    Game.hardDrop { g with pos := (g.pos.1, g.pos.2 + 1) }
  else g
termination_by Grid.HEIGHT - g.pos.2
decreasing_by
  have := movable_down_pos_lt g.grid g.tetromino g.rot g.pos h
  simp only [Grid.HEIGHT] at this ⊢
  omega

/-- The wall-kick offsets `[0, -1, 1, -2i8, 2]`, in source order. -/
def kickOffsets : List Int := [0, -1, 1, -2, 2]

/-- The rotation branch's `for x_offset in [...]` loop: at the first offset
where the rotated piece is legal, shift the anchor column by
`saturating_add_signed` and take the new rotation (an early `return`);
`none` when every offset fails. -/
def tryOffsets (g : Game) (nr : Rotation) : List Int → Option Game
  | [] => none
  | o :: rest =>
    if g.movable nr o 0 then
      some { g with pos := (satAddSigned g.pos.1 o, g.pos.2), rot := nr }
    else tryOffsets g nr rest

/-- The net effect of a rotation action on the game: the first successful
kick, or the unchanged game when every offset is rejected. -/
def rotateAction (g : Game) (nr : Rotation) : Game :=
  (tryOffsets g nr kickOffsets).getD g

/-- `place_tetromino_then_update`: write the active piece into the grid
(checked adds and `at_mut` assertions), add `squash_filled_rows`'s score,
reset the anchor to the spawn position, and then either go `Over` (when
`self._movable_with(self.rot, 0, 0)` fails — note: still the just-locked
piece's shape and rotation) or promote the next piece (`reset_piece`, which
draws `rng` as the new next piece), clear `swapped`, advance the level and
reset the tick. -/
def Game.placeTetrominoThenUpdate (g : Game) (rng : Tetromino) : Option Game := do
  let gw ← Grid.placeTetromino g.grid g.tetromino g.rot g.pos
  let p ← gw.squash_filled_rows
  let gA := { g with grid := p.1, score := g.score + p.2, pos := (Grid.WIDTH / 2, 1) }
  if gA.movable gA.rot 0 0 = false then
    some { gA with state := State.Over }
  else
    some { gA with
      tetromino := gA.next_tetromino
      next_tetromino := rng
      rot := Rotation.DEG0
      swapped := false
      level := gA.level.update
      tick := 0 }

/-- The trailing automatic-fall check of a `Play` frame: when the tick
counter has reached the level's rate, descend one row and reset it (or lock
on failure); otherwise just increment the tick. -/
def Game.autoFall (rng : Tetromino) (g : Game) : Option Game :=
  if g.level.tick_rate ≤ g.tick then
    if g.movable g.rot 0 1 then
      some { g with pos := (g.pos.1, g.pos.2 + 1), tick := 0 }
    else g.placeTetrominoThenUpdate rng
  else
    some { g with tick := g.tick + 1 }

/-- One frame's debounced input signals, one Boolean per logical key group
of the source (`keys_registered` results; the rendering-layer key codes and
the process-wide refractory counter live outside the core). -/
structure Input where
  enter : Bool
  q : Bool
  escape : Bool
  left : Bool
  right : Bool
  down : Bool
  space : Bool
  cw : Bool
  acw : Bool
  hold : Bool
  deriving DecidableEq, Repr

/-- The `State::Play` arm of `Game::update`.  The source's `return`
statements appear as branches that do not go through `autoFall`; branches
without a `return` (left/right moves, a successful soft drop, a rotation
whose every kick offset fails, and no action at all) fall through to the
automatic-fall check.  `rng1` is the `rand::random()` draw of
`reset_piece` inside a lock, `rng2` the draw of `reset_piece` inside
hold-with-empty-slot. -/
def Game.updatePlay (rng1 rng2 : Tetromino) (inp : Input) (g : Game) : Option Game :=
  if inp.escape then some { g with state := State.Pause }
  else if inp.left && g.movable g.rot (-1) 0 then
    Game.autoFall rng1 { g with pos := (g.pos.1 - 1, g.pos.2) }
  else if inp.right && g.movable g.rot 1 0 then
    Game.autoFall rng1 { g with pos := (g.pos.1 + 1, g.pos.2) }
  else if inp.down then
    if g.movable g.rot 0 1 then
      Game.autoFall rng1 { g with pos := (g.pos.1, g.pos.2 + 1) }
    else g.placeTetrominoThenUpdate rng1
  else if inp.space then (g.hardDrop).placeTetrominoThenUpdate rng1
  else if inp.cw then
    match tryOffsets g g.rot.spin_cw kickOffsets with
    | some g2 => some g2
    | none => Game.autoFall rng1 g
  else if inp.acw then
    match tryOffsets g g.rot.spin_acw kickOffsets with
    | some g2 => some g2
    | none => Game.autoFall rng1 g
  else if inp.hold && !g.swapped then
    match g.holding_tetromino with
    | some held =>
      some { g with
        holding_tetromino := some g.tetromino
        tetromino := held
        pos := (Grid.WIDTH / 2, 1)
        rot := Rotation.DEG0
        swapped := true }
    | none =>
      some { g with
        holding_tetromino := some g.tetromino
        tetromino := g.next_tetromino
        next_tetromino := rng2
        rot := Rotation.DEG0
        pos := (Grid.WIDTH / 2, 1)
        swapped := true }
  else Game.autoFall rng1 g

/-- `Game::update`: the top-level state machine.  `none` models the panic
of calling `update` in `WindowClose`. -/
def Game.update (rng1 rng2 : Tetromino) (inp : Input) (g : Game) : Option Game :=
  match g.state with
  | State.Start =>
    if inp.enter then some { g with state := State.Play }
    else if inp.q then some { g with state := State.WindowClose }
    else some g
  | State.Play => g.updatePlay rng1 rng2 inp
  | State.Pause =>
    if inp.enter then some { g with state := State.Play }
    else if inp.q then some { g with state := State.WindowClose }
    else some g
  | State.Over =>
    if inp.enter then some { Game.new rng1 rng2 with state := State.Play }
    else if inp.q then some { g with state := State.WindowClose }
    else some g
  | State.WindowClose => none

/-! ### Concrete states used by counterexamples and witnesses -/

/-- A grid whose top row has one occupied cell at `(0, 0)` and whose row 1 is
completely filled; everything else is empty. -/
def gC2 : Grid :=
  ((List.range 10).foldl (fun g x => g.set x 1 (some Tetromino.I)) Grid.new).set 0 0
    (some Tetromino.T)

/-- A `Play` state about to lock a vertical I piece at column 2 near the
bottom, with one stray block at `(5, 3)` inside the I piece's spawn
footprint (but outside the O piece's footprint); the next-queue piece
is `O`. -/
def sC1 : Game :=
  { state := State.Play
    grid := Grid.new.set 5 3 (some Tetromino.O)
    pos := (2, 18)
    tetromino := Tetromino.I
    rot := Rotation.DEG90
    holding_tetromino := none
    swapped := false
    next_tetromino := Tetromino.O
    level := Level.new
    tick := 0
    score := 0 }

/-- A fresh-looking `Play` state: empty grid, T piece at the spawn anchor,
tick 0, rate 30. -/
def g4 : Game :=
  { state := State.Play
    grid := Grid.new
    pos := (5, 1)
    tetromino := Tetromino.T
    rot := Rotation.DEG0
    holding_tetromino := none
    swapped := false
    next_tetromino := Tetromino.O
    level := Level.new
    tick := 0
    score := 0 }

/-- The all-false input frame. -/
def inpN : Input :=
  { enter := false, q := false, escape := false, left := false, right := false
    down := false, space := false, cw := false, acw := false, hold := false }

/-- A frame with only the leftward-move group registered. -/
def inpLeft : Input := { inpN with left := true }

/-- A frame with only the rightward-move group registered. -/
def inpRight : Input := { inpN with right := true }

/-- A frame with only the soft-drop group registered. -/
def inpDown : Input := { inpN with down := true }

/-- A frame with only the hard-drop group registered. -/
def inpSpace : Input := { inpN with space := true }

/-- A frame with only the rotate-clockwise group registered. -/
def inpCw : Input := { inpN with cw := true }

/-- A frame with only the rotate-counter-clockwise group registered. -/
def inpAcw : Input := { inpN with acw := true }

/-- A frame with only the hold/swap group registered. -/
def inpHold : Input := { inpN with hold := true }

/-! ### Claim theorems -/

/-- **C9.** For every orientation, `spin_cw` and `spin_acw` are total and
mutually inverse, and four clockwise spins are the identity: the rotations
form a cyclic group of order 4. -/
theorem c9_rotation_cyclic_group :
    (∀ r : Rotation, r.spin_cw.spin_acw = r) ∧
    (∀ r : Rotation, r.spin_acw.spin_cw = r) ∧
    (∀ r : Rotation, r.spin_cw.spin_cw.spin_cw.spin_cw = r) := by decide

/-- **C10.** The legality check `_movable_with` is total for every shape,
rotation, anchor and offset: the checked adds and explicit bounds tests in
front of the `Grid::at` read keep it from ever firing `at`'s fatal bounds
assertions (the `none` outcome is unreachable); and whenever some candidate
cell falls outside the playfield, the check returns `false`. -/
theorem c10_movable_total_and_oob_false :
    (∀ (g : Grid) (t : Tetromino) (r : Rotation) (pos : Nat × Nat) (xd yd : Int),
      ∃ b, movableWithE g t r pos xd yd = some b) ∧
    (∀ (g : Grid) (t : Tetromino) (r : Rotation) (pos : Nat × Nat) (xd yd : Int),
      (∃ d ∈ t.neighbors r, ¬ targetInBounds pos xd yd d) →
      movableWithE g t r pos xd yd = some false) := by
  constructor
  · intro g t r pos xd yd
    exact cellsFreeE_isSome g pos xd yd (t.neighbors r)
  · intro g t r pos xd yd ⟨d, hd, hnib⟩
    obtain ⟨b, hb⟩ := cellsFreeE_isSome g pos xd yd (t.neighbors r)
    cases b with
    | true => exact absurd (cellsFreeE_true_spec g pos xd yd _ hb d hd).1 hnib
    | false => exact hb

/-- Witness for C10's second conjunct: the T piece at anchor column 0 has
its `(-1, 0)` neighbor out of bounds, and the check returns `false`. -/
theorem c10_movable_total_and_oob_false_witness :
    movableWithE Grid.new Tetromino.T Rotation.DEG0 (0, 5) 0 0 = some false :=
  c10_movable_total_and_oob_false.2 Grid.new Tetromino.T Rotation.DEG0 (0, 5) 0 0
    ⟨(-1, 0), by decide, by decide⟩

/-- **C3, counterexample.** The claim says the fall-tick interval changes
from 30 to 25 after exactly 26 piece locks; but `piece_count` starts at 1,
so after 24 locks the rate is still 30 and after 25 locks it is already 25
(and lock 26 changes nothing). -/
theorem c3_counterexample :
    (levelAfter 24).tick_rate = 30 ∧ (levelAfter 25).tick_rate = 25 ∧
    (levelAfter 26).tick_rate = 25 := by decide

set_option maxHeartbeats 1000000 in
/-- The step table never increases from one count to the next. -/
theorem rateFor_succ_le (n : Nat) : Level.rateFor (n + 1) ≤ Level.rateFor n := by
  unfold Level.rateFor
  split_ifs <;> omega

/-- The piece counter starts at 1 and increments once per lock. -/
theorem levelAfter_piece_count (k : Nat) : (levelAfter k).piece_count = k + 1 := by
  induction k with
  | zero => rfl
  | succ n ih => simp [levelAfter, Level.update, ih]

/-- **C3, amended.** The tick interval after `k` locks is the fixed step
table evaluated at `k + 1` (the counter counts the piece in play, starting
at 1), so the 30 → 25 step lands after exactly 25 locks, and the interval
is monotonically non-increasing over the session. -/
theorem c3_amended :
    (∀ k, (levelAfter k).tick_rate = Level.rateFor (k + 1)) ∧
    (∀ k, (levelAfter (k + 1)).tick_rate ≤ (levelAfter k).tick_rate) ∧
    (levelAfter 24).tick_rate = 30 ∧ (levelAfter 25).tick_rate = 25 := by
  have hrate : ∀ k, (levelAfter k).tick_rate = Level.rateFor (k + 1) := by
    intro k
    cases k with
    | zero => decide
    | succ n =>
      show ((levelAfter n).update).tick_rate = _
      simp [Level.update, levelAfter_piece_count n]
  refine ⟨hrate, ?_, by decide, by decide⟩
  intro k
  rw [hrate, hrate]
  exact rateFor_succ_le (k + 1)

/-- **C2** (code bug evaluation).  On `gC2` — top row occupied at `(0, 0)`,
row 1 completely filled — `squash_filled_rows` leaves the filled row 1
fully intact, erases the non-filled top row's content instead of shifting
it down to `(0, 1)`, and still returns the one-row score 5.  The
`min_y.saturating_sub(1)` sentinel collapses to 0, so row 0 is never added
to the copy source range. -/
theorem c2_squash_top_row_bug :
    gC2.rowFilled 1 = true ∧
    (gC2.squash_filled_rows).map
        (fun p => (p.1.rowFilled 1, p.1.atD 0 0, p.1.atD 0 1, p.2)) =
      some (true, none, some Tetromino.I, 5) := by decide

/-- **C8** (code bug evaluation).  Calling `squash_filled_rows` twice in a
row on `gC2` clears one more row the second time (both calls return score
5, not 0): the first call failed to remove the filled row, so the function
is not idempotent. -/
theorem c8_squash_not_idempotent :
    (gC2.squash_filled_rows.bind fun p => p.1.squash_filled_rows).map
        (fun p => p.2) = some 5 := by decide

/-- When `squash_filled_rows` returns, its score is the table value of the
number of filled rows, which the `_to_score` assertion bounds by 4. -/
theorem squash_score_eq (g : Grid) (p : Grid × Nat)
    (h : g.squash_filled_rows = some p) :
    p.2 = Grid.clearScore g.filledRows.length ∧ g.filledRows.length ≤ 4 := by
  simp only [Grid.squash_filled_rows] at h
  rw [Option.map_eq_some'] at h
  obtain ⟨sc, hsc, hp⟩ := h
  unfold Grid.toScore at hsc
  by_cases hle : g.filledRows.length ≤ 4
  · rw [if_pos hle] at hsc
    injection hsc with hsc
    exact ⟨by rw [← hp, ← hsc], hle⟩
  · rw [if_neg hle] at hsc
    cases hsc

/-- More than 4 filled rows makes the `_to_score` assertion fire. -/
theorem squash_gt4_none (g : Grid) (h : 4 < g.filledRows.length) :
    g.squash_filled_rows = none := by
  simp only [Grid.squash_filled_rows, Grid.toScore, if_neg (by omega : ¬ g.filledRows.length ≤ 4),
    Option.map_none']

/-- A lock adds exactly the squash score to the total. -/
theorem lock_score_delta (rng : Tetromino) (s g2 : Game) (gw : Grid)
    (hw : Grid.placeTetromino s.grid s.tetromino s.rot s.pos = some gw)
    (h : s.placeTetrominoThenUpdate rng = some g2) :
    g2.score = s.score + Grid.clearScore gw.filledRows.length := by
  unfold Game.placeTetrominoThenUpdate at h
  rw [hw] at h
  simp only [Option.bind_eq_bind, Option.some_bind] at h
  cases hs : gw.squash_filled_rows with
  | none => rw [hs] at h; cases h
  | some p =>
    rw [hs] at h
    simp only [Option.some_bind] at h
    have hscore := (squash_score_eq gw p hs).1
    split at h <;> (injection h with h; rw [← h]; simp [← hscore])

/-- **C7.** The score added by a single lock is exactly the fixed table
{0 ↦ 0, 1 ↦ 5, 2 ↦ 15, 3 ↦ 30, 4 ↦ 50} applied to the number of completely
filled rows after the piece is written, and observing more than 4 filled
rows is a fatal invariant violation (`_to_score`'s assertion). -/
theorem c7_lock_score_table :
    Grid.clearScore 0 = 0 ∧ Grid.clearScore 1 = 5 ∧ Grid.clearScore 2 = 15 ∧
    Grid.clearScore 3 = 30 ∧ Grid.clearScore 4 = 50 ∧
    (∀ (g : Grid) (p : Grid × Nat), g.squash_filled_rows = some p →
      p.2 = Grid.clearScore g.filledRows.length ∧ g.filledRows.length ≤ 4) ∧
    (∀ g : Grid, 4 < g.filledRows.length → g.squash_filled_rows = none) ∧
    (∀ (rng : Tetromino) (s g2 : Game) (gw : Grid),
      Grid.placeTetromino s.grid s.tetromino s.rot s.pos = some gw →
      s.placeTetrominoThenUpdate rng = some g2 →
      g2.score = s.score + Grid.clearScore gw.filledRows.length) :=
  ⟨rfl, rfl, rfl, rfl, rfl, squash_score_eq, squash_gt4_none, lock_score_delta⟩

/-- A `Play` state realizing the spec's worked example: rows 20 and 21 are
pre-filled except columns 0–1, and a flat O piece is about to lock at the
bottom-left, completing both rows. -/
def sC7 : Game :=
  { state := State.Play
    grid := (List.range 8).foldl
      (fun g i => (g.set (i + 2) 20 (some Tetromino.L)).set (i + 2) 21 (some Tetromino.J))
      Grid.new
    pos := (0, 20)
    tetromino := Tetromino.O
    rot := Rotation.DEG0
    holding_tetromino := none
    swapped := false
    next_tetromino := Tetromino.S
    level := Level.new
    tick := 0
    score := 0 }

/-- The grid right after `sC7`'s piece is written (both bottom rows full). -/
def gwC7 : Grid :=
  (Grid.placeTetromino sC7.grid sC7.tetromino sC7.rot sC7.pos).getD Grid.new

/-- The game after `sC7`'s lock completes. -/
def sC7r : Game := (sC7.placeTetrominoThenUpdate Tetromino.I).getD sC7

set_option maxRecDepth 8000 in
set_option maxHeartbeats 1000000 in
/-- Witness for C7: locking the O piece completes 2 rows and adds exactly
15 to the score. -/
theorem c7_lock_score_table_witness :
    gwC7.filledRows.length = 2 ∧ sC7r.score = sC7.score + 15 := by
  refine ⟨by decide, ?_⟩
  have h := c7_lock_score_table.2.2.2.2.2.2.2 Tetromino.I sC7 sC7r gwC7
    (by decide) (by decide)
  have hl : gwC7.filledRows.length = 2 := by decide
  rw [hl] at h
  exact h

/-- A legal kick never saturates: legality of the `(0, 0)` neighbor keeps
the shifted anchor column inside `[0, WIDTH)`, so `saturating_add_signed`
is the plain sum. -/
theorem movable_satAdd (g : Grid) (t : Tetromino) (r : Rotation)
    (pos : Nat × Nat) (o : Int) (h : movableWith g t r pos o 0 = true) :
    (satAddSigned pos.1 o : Int) = (pos.1 : Int) + o := by
  have he : movableWithE g t r pos o 0 = some true := by
    rw [movableWithE_eq_some, h]
  have hs := (cellsFreeE_true_spec g pos o 0 (t.neighbors r) he (0, 0)
    (zero_mem_neighbors t r)).1
  obtain ⟨h1, h2, -, -⟩ := hs
  simp only [Grid.WIDTH] at h2
  simp only [satAddSigned]
  omega

/-- The kick loop lands on exactly the first offset the search order finds
legal. -/
theorem tryOffsets_found (g : Game) (nr : Rotation) :
    ∀ (l : List Int) (o : Int),
      l.find? (fun o2 => g.movable nr o2 0) = some o →
      tryOffsets g nr l =
        some { g with pos := (satAddSigned g.pos.1 o, g.pos.2), rot := nr } := by
  intro l
  induction l with
  | nil => intro o h; simp at h
  | cons a rest ih =>
    intro o h
    by_cases ha : g.movable nr a 0 = true
    · rw [List.find?_cons_of_pos _ (by simpa using ha)] at h
      injection h with h
      subst h
      simp [tryOffsets, ha]
    · rw [List.find?_cons_of_neg _ (by simpa using ha)] at h
      simp only [tryOffsets]
      rw [if_neg ha]
      exact ih o h

/-- When every kick offset is rejected, the loop falls through. -/
theorem tryOffsets_all_fail (g : Game) (nr : Rotation) :
    ∀ l : List Int, (∀ o ∈ l, g.movable nr o 0 = false) →
      tryOffsets g nr l = none := by
  intro l
  induction l with
  | nil => intro _; rfl
  | cons a rest ih =>
    intro h
    have ha := h a (List.mem_cons_self a rest)
    simp only [tryOffsets]
    rw [if_neg (by simp [ha])]
    exact ih fun o ho => h o (List.mem_cons_of_mem a ho)

/-- **C6.** A rotation action tries the anchor-column offsets in exactly
the order `[0, -1, 1, -2, 2]` and applies the target rotation with the
anchor shifted by the first legal offset (an exact shift — saturation
cannot trigger); in particular, blocked at 0 but legal at −1 lands at −1;
and when no offset is legal the rotation is rejected with position and
rotation unchanged. -/
theorem c6_wall_kick_search (g : Game) (nr : Rotation) :
    (∀ o : Int, kickOffsets.find? (fun o2 => g.movable nr o2 0) = some o →
      rotateAction g nr =
        { g with pos := (satAddSigned g.pos.1 o, g.pos.2), rot := nr } ∧
      ((rotateAction g nr).pos.1 : Int) = (g.pos.1 : Int) + o ∧
      (rotateAction g nr).rot = nr ∧ (rotateAction g nr).pos.2 = g.pos.2) ∧
    (g.movable nr 0 0 = false → g.movable nr (-1) 0 = true →
      ((rotateAction g nr).pos.1 : Int) = (g.pos.1 : Int) - 1 ∧
      (rotateAction g nr).rot = nr ∧ (rotateAction g nr).pos.2 = g.pos.2) ∧
    ((∀ o ∈ kickOffsets, g.movable nr o 0 = false) → rotateAction g nr = g) := by
  have hfound : ∀ o : Int, kickOffsets.find? (fun o2 => g.movable nr o2 0) = some o →
      rotateAction g nr =
        { g with pos := (satAddSigned g.pos.1 o, g.pos.2), rot := nr } ∧
      ((rotateAction g nr).pos.1 : Int) = (g.pos.1 : Int) + o ∧
      (rotateAction g nr).rot = nr ∧ (rotateAction g nr).pos.2 = g.pos.2 := by
    intro o h
    have heq := tryOffsets_found g nr kickOffsets o h
    have hleg : g.movable nr o 0 = true := by
      have := List.find?_some h
      simpa using this
    have hres : rotateAction g nr =
        { g with pos := (satAddSigned g.pos.1 o, g.pos.2), rot := nr } := by
      rw [rotateAction, heq]
      rfl
    refine ⟨hres, ?_, ?_, ?_⟩ <;> rw [hres]
    exact movable_satAdd g.grid g.tetromino nr g.pos o hleg
  refine ⟨hfound, ?_, ?_⟩
  · intro h0 hm1
    have hf : kickOffsets.find? (fun o2 => g.movable nr o2 0) = some (-1) := by
      show List.find? _ (0 :: -1 :: 1 :: -2 :: 2 :: []) = _
      rw [List.find?_cons_of_neg _ (by simpa using h0),
        List.find?_cons_of_pos _ (by simpa using hm1)]
    exact (hfound (-1) hf).2
  · intro h
    rw [rotateAction, tryOffsets_all_fail g nr kickOffsets h]
    rfl

/-- A `Play` state for the C6 witness: T piece at `(5, 10)`, one block at
`(6, 10)` blocking the clockwise rotation at offset 0 but not at −1. -/
def g6 : Game :=
  { g4 with grid := Grid.new.set 6 10 (some Tetromino.O), pos := (5, 10) }

/-- Witness for C6: the blocked-at-0, legal-at-−1 rotation lands exactly
one column to the left with the new rotation applied. -/
theorem c6_wall_kick_search_witness :
    ((rotateAction g6 Rotation.DEG90).pos.1 : Int) = (g6.pos.1 : Int) - 1 ∧
    (rotateAction g6 Rotation.DEG90).rot = Rotation.DEG90 ∧
    (rotateAction g6 Rotation.DEG90).pos.2 = g6.pos.2 :=
  (c6_wall_kick_search g6 Rotation.DEG90).2.1 (by decide) (by decide)

/-- **C1, counterexample.**  Locking `sC1`'s vertical I piece puts the game
in `Over`, even though the *new* piece (the O promoted from the next queue)
would be perfectly legal at the default spawn anchor with rotation 0: the
source's spawn-blocked test runs before `reset_piece`, so it checks the
just-locked piece's shape and rotation, not the new piece's. -/
theorem c1_spawn_check_uses_old_piece :
    (sC1.placeTetrominoThenUpdate Tetromino.T).map
        (fun g2 => (g2.state, movableWith g2.grid g2.next_tetromino Rotation.DEG0
          (Grid.WIDTH / 2, 1) 0 0)) =
      some (State.Over, true) := by decide

/-- **C1, amended.**  After the piece is written, the rows squashed and the
anchor reset, the game goes `Over` iff the *just-locked* piece's shape at
its *current* rotation is not legal at the default spawn anchor; otherwise
the next-queue piece is promoted, a fresh next piece is drawn, the
hold-permitted flag is cleared, the level advances and the fall timer
resets (and on `Over` none of that happens). -/
theorem c1_lock_sequence (rng : Tetromino) (s g2 : Game)
    (hplay : s.state = State.Play)
    (h : s.placeTetrominoThenUpdate rng = some g2) :
    (g2.state = State.Over ↔
      movableWith g2.grid s.tetromino s.rot (Grid.WIDTH / 2, 1) 0 0 = false) ∧
    (movableWith g2.grid s.tetromino s.rot (Grid.WIDTH / 2, 1) 0 0 = true →
      g2.tetromino = s.next_tetromino ∧ g2.next_tetromino = rng ∧
      g2.rot = Rotation.DEG0 ∧ g2.swapped = false ∧
      g2.level = s.level.update ∧ g2.tick = 0 ∧ g2.pos = (Grid.WIDTH / 2, 1)) ∧
    (movableWith g2.grid s.tetromino s.rot (Grid.WIDTH / 2, 1) 0 0 = false →
      g2.tetromino = s.tetromino ∧ g2.next_tetromino = s.next_tetromino ∧
      g2.swapped = s.swapped ∧ g2.level = s.level ∧ g2.tick = s.tick) := by
  unfold Game.placeTetrominoThenUpdate at h
  cases hw : Grid.placeTetromino s.grid s.tetromino s.rot s.pos with
  | none => rw [hw] at h; cases h
  | some gw =>
    rw [hw] at h
    simp only [Option.bind_eq_bind, Option.some_bind] at h
    cases hs : gw.squash_filled_rows with
    | none => rw [hs] at h; cases h
    | some p =>
      rw [hs] at h
      simp only [Option.some_bind, Game.movable] at h
      by_cases hc : movableWith p.1 s.tetromino s.rot (Grid.WIDTH / 2, 1) 0 0 = false
      · rw [if_pos hc] at h
        injection h with h
        subst h
        refine ⟨⟨fun _ => hc, fun _ => rfl⟩, fun ht => ?_, fun _ => ?_⟩
        · exact absurd hc (by simp [ht])
        · exact ⟨rfl, rfl, rfl, rfl, rfl⟩
      · rw [if_neg hc] at h
        injection h with h
        subst h
        have hct : movableWith p.1 s.tetromino s.rot (Grid.WIDTH / 2, 1) 0 0 = true := by
          revert hc
          cases movableWith p.1 s.tetromino s.rot (Grid.WIDTH / 2, 1) 0 0 <;> simp
        refine ⟨⟨fun hov => ?_, fun hf => ?_⟩, fun _ => ?_, fun hf => ?_⟩
        · have hov2 : s.state = State.Over := hov
          rw [hplay] at hov2
          cases hov2
        · rw [hct] at hf; cases hf
        · exact ⟨rfl, rfl, rfl, rfl, rfl, rfl, rfl⟩
        · rw [hct] at hf; cases hf

/-- A `Play` state whose T piece locks low on an empty grid, leaving the
spawn area clear. -/
def sC1w : Game :=
  { state := State.Play
    grid := Grid.new
    pos := (5, 20)
    tetromino := Tetromino.T
    rot := Rotation.DEG0
    holding_tetromino := none
    swapped := false
    next_tetromino := Tetromino.O
    level := Level.new
    tick := 0
    score := 0 }

/-- The game after `sC1w`'s lock. -/
def sC1wr : Game := (sC1w.placeTetrominoThenUpdate Tetromino.I).getD sC1w

set_option maxRecDepth 8000 in
set_option maxHeartbeats 1000000 in
/-- Witness for C1 (amended): a low lock with a clear spawn promotes the
next-queue piece, draws the fresh next piece, clears the hold flag,
advances the level and resets the timer. -/
theorem c1_lock_sequence_witness :
    sC1wr.tetromino = Tetromino.O ∧ sC1wr.next_tetromino = Tetromino.I ∧
    sC1wr.rot = Rotation.DEG0 ∧ sC1wr.swapped = false ∧
    sC1wr.level = sC1w.level.update ∧ sC1wr.tick = 0 ∧
    sC1wr.pos = (Grid.WIDTH / 2, 1) := by
  have h := c1_lock_sequence Tetromino.I sC1w sC1wr rfl (by decide)
  exact h.2.1 (by decide)

/-- **C4, counterexample.**  Taking a leftward move on `g4` (tick 0, rate
30) moves the piece to column 4 *and* leaves the frame running the
automatic-fall check, which increments the fall timer to 1; the claim says
the check is skipped, which would leave the timer at 0. -/
theorem c4_left_move_does_not_skip_fall :
    (g4.update Tetromino.T Tetromino.O inpLeft).map (fun g2 => (g2.pos, g2.tick)) =
      some ((4, 1), 1) := by decide

/-- **C4, amended.**  Hard drop, a soft drop that cannot descend, a
rotation that succeeds at some kick offset, and hold/swap end the frame
without the automatic-fall check; leftward and rightward moves, soft drops
that descend, and rotations rejected at every offset fall through to the
automatic-fall check. -/
theorem c4_actions_vs_fall_check (g : Game) (r1 r2 : Tetromino)
    (hplay : g.state = State.Play) :
    (g.movable g.rot (-1) 0 = true →
      g.update r1 r2 inpLeft = Game.autoFall r1 { g with pos := (g.pos.1 - 1, g.pos.2) }) ∧
    (g.movable g.rot 1 0 = true →
      g.update r1 r2 inpRight = Game.autoFall r1 { g with pos := (g.pos.1 + 1, g.pos.2) }) ∧
    (g.movable g.rot 0 1 = true →
      g.update r1 r2 inpDown = Game.autoFall r1 { g with pos := (g.pos.1, g.pos.2 + 1) }) ∧
    (g.movable g.rot 0 1 = false →
      g.update r1 r2 inpDown = g.placeTetrominoThenUpdate r1) ∧
    (g.update r1 r2 inpSpace = (g.hardDrop).placeTetrominoThenUpdate r1) ∧
    (∀ g2, tryOffsets g g.rot.spin_cw kickOffsets = some g2 →
      g.update r1 r2 inpCw = some g2) ∧
    (tryOffsets g g.rot.spin_cw kickOffsets = none →
      g.update r1 r2 inpCw = Game.autoFall r1 g) ∧
    (∀ g2, tryOffsets g g.rot.spin_acw kickOffsets = some g2 →
      g.update r1 r2 inpAcw = some g2) ∧
    (tryOffsets g g.rot.spin_acw kickOffsets = none →
      g.update r1 r2 inpAcw = Game.autoFall r1 g) ∧
    (g.swapped = false → g.holding_tetromino = none →
      g.update r1 r2 inpHold = some { g with
        holding_tetromino := some g.tetromino
        tetromino := g.next_tetromino
        next_tetromino := r2
        rot := Rotation.DEG0
        pos := (Grid.WIDTH / 2, 1)
        swapped := true }) ∧
    (∀ held, g.swapped = false → g.holding_tetromino = some held →
      g.update r1 r2 inpHold = some { g with
        holding_tetromino := some g.tetromino
        tetromino := held
        pos := (Grid.WIDTH / 2, 1)
        rot := Rotation.DEG0
        swapped := true }) := by
  refine ⟨?_, ?_, ?_, ?_, ?_, ?_, ?_, ?_, ?_, ?_, ?_⟩
  · intro hmv
    simp [Game.update, hplay, Game.updatePlay, inpLeft, inpN, hmv]
  · intro hmv
    simp [Game.update, hplay, Game.updatePlay, inpRight, inpN, hmv]
  · intro hmv
    simp [Game.update, hplay, Game.updatePlay, inpDown, inpN, hmv]
  · intro hmv
    simp [Game.update, hplay, Game.updatePlay, inpDown, inpN, hmv]
  · simp [Game.update, hplay, Game.updatePlay, inpSpace, inpN]
  · intro g2 ht
    simp [Game.update, hplay, Game.updatePlay, inpCw, inpN, ht]
  · intro ht
    simp [Game.update, hplay, Game.updatePlay, inpCw, inpN, ht]
  · intro g2 ht
    simp [Game.update, hplay, Game.updatePlay, inpAcw, inpN, ht]
  · intro ht
    simp [Game.update, hplay, Game.updatePlay, inpAcw, inpN, ht]
  · intro hsw hh
    simp [Game.update, hplay, Game.updatePlay, inpHold, inpN, hsw, hh]
  · intro held hsw hh
    simp [Game.update, hplay, Game.updatePlay, inpHold, inpN, hsw, hh]

/-- Witness for C4 (amended): the leftward-move conjunct at the concrete
state `g4`. -/
theorem c4_actions_vs_fall_check_witness :
    g4.update Tetromino.T Tetromino.O inpLeft =
      Game.autoFall Tetromino.T { g4 with pos := (g4.pos.1 - 1, g4.pos.2) } :=
  (c4_actions_vs_fall_check g4 Tetromino.T Tetromino.O rfl).1 (by decide)

/-- **C5, counterexample.**  A soft drop on `g4` (tick 0, rate 30) descends
one row but leaves the fall timer at 1, not 0: the timer is not reset. -/
theorem c5_soft_drop_does_not_reset_timer :
    (g4.update Tetromino.T Tetromino.O inpDown).map (fun g2 => (g2.pos, g2.tick)) =
      some ((5, 2), 1) := by decide

/-- **C5, amended.**  A legal soft drop descends exactly one row and falls
through to the normal automatic-fall processing (in particular, below the
tick threshold the timer increments rather than resets); an illegal soft
drop locks immediately via the lock sequence. -/
theorem c5_soft_drop (g : Game) (r1 r2 : Tetromino)
    (hplay : g.state = State.Play) :
    (g.movable g.rot 0 1 = true →
      g.update r1 r2 inpDown = Game.autoFall r1 { g with pos := (g.pos.1, g.pos.2 + 1) }) ∧
    (g.movable g.rot 0 1 = true → g.tick < g.level.tick_rate →
      g.update r1 r2 inpDown =
        some { g with pos := (g.pos.1, g.pos.2 + 1), tick := g.tick + 1 }) ∧
    (g.movable g.rot 0 1 = false →
      g.update r1 r2 inpDown = g.placeTetrominoThenUpdate r1) := by
  refine ⟨?_, ?_, ?_⟩
  · intro hmv
    simp [Game.update, hplay, Game.updatePlay, inpDown, inpN, hmv]
  · intro hmv htick
    simp [Game.update, hplay, Game.updatePlay, inpDown, inpN, hmv, Game.autoFall,
      Nat.not_le.mpr htick]
  · intro hmv
    simp [Game.update, hplay, Game.updatePlay, inpDown, inpN, hmv]

/-- Witness for C5 (amended): the sub-threshold soft drop on `g4` moves the
piece from row 1 to row 2 and bumps the timer from 0 to 1. -/
theorem c5_soft_drop_witness :
    g4.update Tetromino.T Tetromino.O inpDown =
      some { g4 with pos := (g4.pos.1, g4.pos.2 + 1), tick := g4.tick + 1 } :=
  (c5_soft_drop g4 Tetromino.T Tetromino.O rfl).2.1 (by decide) (by decide)

